import Mathlib

/-!
Verification of the detection-driven servo coordinator of
TrainingObjectDetection (src/4_useModel/main.py, `process_results`) and of
the servo controller (src/4_useModel/modules/servo_controller.py,
`ServoController.move` / `get_angle`).

Timestamps and angles are modelled as rationals; the Python `None` values
of the module-level state `last_seen_time` / `last_object` become
`Option` values.
-/

/-- One detected object as delivered by the detector: `class_name`,
`confidence` and a bounding box.  `process_results` reads only
`obj['class_name']`. -/
structure Detection where
  class_name : String
  confidence : ℚ
  bounding_box : ℚ × ℚ × ℚ × ℚ
deriving DecidableEq

/-- A command sent to the servo: `servo.move(a)` (and `servo.home()`,
which is `servo.move(home_angle)`). -/
inductive Command where
  | moveTo (angle : ℚ)
deriving DecidableEq

/-- The module-level mutable state of main.py: `last_seen_time` and
`last_object`, both initially `None`. -/
structure CoordState where
  last_seen_time : Option ℚ
  last_object : Option String
deriving DecidableEq

/-- The initial state of main.py: `last_seen_time = None`,
`last_object = None`. -/
def initialState : CoordState := ⟨none, none⟩

/-- The `for obj in results:` loop body of `process_results`: on the first
`battery` or `motor` detection it emits a move command when the class is
new, updates both state variables and breaks; other class names fall
through to the next iteration.  Returns `none` when the loop finishes
without a break. -/
def process_loop (last_object : Option String) (current_time : ℚ) :
    List Detection → Option (CoordState × List Command)
  | [] => none
  | obj :: rest =>
    if obj.class_name = "battery" then
      some (⟨some current_time, some "battery"⟩,
        if last_object ≠ some "battery" then [Command.moveTo 45] else [])
    else if obj.class_name = "motor" then
      some (⟨some current_time, some "motor"⟩,
        if last_object ≠ some "motor" then [Command.moveTo 135] else [])
    else process_loop last_object current_time rest

/-- `process_results` of main.py as a state transformer: given the servo's
home angle, the current state, the detection list and the current time, it
returns the new state and the list of servo commands issued during the
tick.  `if results:` is the Python truthiness test, i.e. non-emptiness;
the idle timeout is the literal `1.0` of the source. -/
def process_results (homeAngle : ℚ) (s : CoordState)
    (results : List Detection) (current_time : ℚ) : CoordState × List Command :=
  if results.isEmpty then
    match s.last_seen_time with
    | some t =>
      if current_time - t > 1 then
        (⟨none, none⟩, [Command.moveTo homeAngle])
      else (s, [])
    | none => (s, [])
  else
    match process_loop s.last_object current_time results with
    | some r => r
    | none => (s, [])

/-- The class-to-angle configuration hard-coded in the `if/elif` chain of
`process_results`: battery ↦ 45, motor ↦ 135, everything else unknown. -/
def classToAngle (c : String) : Option ℚ :=
  if c = "battery" then some 45 else if c = "motor" then some 135 else none

/-- The matched class of a tick: the class on which the loop of
`process_results` breaks, i.e. the first `battery`/`motor` detection. -/
def matchLoop : List Detection → Option String
  | [] => none
  | obj :: rest =>
    if obj.class_name = "battery" then some "battery"
    else if obj.class_name = "motor" then some "motor"
    else matchLoop rest

/-- Modelled from the spec's matching rule, for comparison with
`matchLoop`: iterate detections in the order provided and take the first
one whose `class_name` is a key of `class_to_angle`. -/
def spec_first_match (dets : List Detection) : Option String :=
  (dets.find? fun d => (classToAngle d.class_name).isSome).map Detection.class_name

/-- A run of the per-frame callback: fold `process_results` over a list of
ticks (detection list, timestamp), concatenating the emitted commands. -/
def runTicks (homeAngle : ℚ) : CoordState → List (List Detection × ℚ) →
    CoordState × List Command
  | s, [] => (s, [])
  | s, (dets, now) :: rest =>
    let r := process_results homeAngle s dets now
    let r2 := runTicks homeAngle r.1 rest
    (r2.1, r.2 ++ r2.2)

/-- The spec's state invariant as a decidable predicate:
`last_object` is non-empty iff `last_seen_time` is non-empty. -/
def coordInv (s : CoordState) : Prop :=
  s.last_object.isSome = s.last_seen_time.isSome

instance (s : CoordState) : Decidable (coordInv s) := by
  unfold coordInv; infer_instance

/-- `ServoController` of servo_controller.py, restricted to the fields its
angle logic reads and writes: the configured range, home angle and
calibration offset, the reported `current_angle`, and `servo_angle`
standing for the hardware command `self.servo.angle`. -/
structure ServoController where
  min_angle : ℚ
  max_angle : ℚ
  home_angle : ℚ
  angle_offset : ℚ
  current_angle : ℚ
  servo_angle : ℚ
deriving DecidableEq

/-- `_clamp_angle`: `max(self.min_angle, min(self.max_angle, angle))`. -/
def ServoController.clamp_angle (s : ServoController) (angle : ℚ) : ℚ :=
  max s.min_angle (min s.max_angle angle)

/-- `ServoController.move`: clamp the requested angle, apply and re-clamp
the calibration offset for the hardware command, store the requested
(uncalibrated) clamped angle in `current_angle`. -/
def ServoController.move (s : ServoController) (angle : ℚ) : ServoController :=
  let a := s.clamp_angle angle
  let calibrated := s.clamp_angle (a + s.angle_offset)
  { s with servo_angle := calibrated, current_angle := a }

/-- `ServoController.get_angle`: returns `self.current_angle`. -/
def ServoController.get_angle (s : ServoController) : ℚ := s.current_angle

/-- `ServoController.home`: `self.move(self.home_angle)`. -/
def ServoController.home (s : ServoController) : ServoController :=
  s.move s.home_angle

/-! ## Helper lemmas -/

lemma process_loop_of_matchLoop_none (lo : Option String) (t : ℚ)
    (dets : List Detection) (hm : matchLoop dets = none) :
    process_loop lo t dets = none := by
  induction dets with
  | nil => simp [process_loop]
  | cons obj rest ih =>
    by_cases hb : obj.class_name = "battery"
    · simp [matchLoop, hb] at hm
    · by_cases hmo : obj.class_name = "motor"
      · simp [matchLoop, hb, hmo] at hm
      · simp [matchLoop, hb, hmo] at hm
        simp [process_loop, hb, hmo, ih hm]

lemma process_loop_of_matchLoop_some (lo : Option String) (t : ℚ) (c : String)
    (dets : List Detection) (hm : matchLoop dets = some c) :
    process_loop lo t dets =
      some (⟨some t, some c⟩,
        if lo = some c then []
        else [Command.moveTo (if c = "battery" then 45 else 135)]) := by
  induction dets with
  | nil => simp [matchLoop] at hm
  | cons obj rest ih =>
    by_cases hb : obj.class_name = "battery"
    · simp [matchLoop, hb] at hm
      subst hm
      simp [process_loop, hb, ite_not]
    · by_cases hmo : obj.class_name = "motor"
      · simp [matchLoop, hb, hmo] at hm
        subst hm
        simp [process_loop, hb, hmo, ite_not]
      · simp [matchLoop, hb, hmo] at hm
        simp [process_loop, hb, hmo, ih hm]

lemma process_results_of_match (homeAngle : ℚ) (s : CoordState) (c : String)
    (dets : List Detection) (now : ℚ) (hm : matchLoop dets = some c) :
    process_results homeAngle s dets now =
      (⟨some now, some c⟩,
        if s.last_object = some c then []
        else [Command.moveTo (if c = "battery" then 45 else 135)]) := by
  cases dets with
  | nil => simp [matchLoop] at hm
  | cons obj rest =>
    simp [process_results,
      process_loop_of_matchLoop_some s.last_object now c _ hm]

lemma process_results_no_match_quiet (homeAngle now : ℚ) (s : CoordState)
    (dets : List Detection) (hm : matchLoop dets = none)
    (hb : ∀ t, s.last_seen_time = some t → ¬ now - t > 1) :
    process_results homeAngle s dets now = (s, []) := by
  cases dets with
  | nil =>
    cases h : s.last_seen_time with
    | none => simp [process_results, h]
    | some t => simp [process_results, h, hb t h]
  | cons obj rest =>
    simp [process_results, process_loop_of_matchLoop_none s.last_object now _ hm]

lemma matchLoop_none_of_unknown (dets : List Detection)
    (h : ∀ d ∈ dets, classToAngle d.class_name = none) : matchLoop dets = none := by
  induction dets with
  | nil => simp [matchLoop]
  | cons obj rest ih =>
    have h0 := h obj (List.mem_cons_self _ _)
    have hb : obj.class_name ≠ "battery" := by
      intro hc; simp [classToAngle, hc] at h0
    have hmo : obj.class_name ≠ "motor" := by
      intro hc; simp [classToAngle, hc] at h0
    simp [matchLoop, hb, hmo, ih fun d hd => h d (List.mem_cons_of_mem _ hd)]

lemma matchLoop_eq_spec (dets : List Detection) :
    matchLoop dets = spec_first_match dets := by
  induction dets with
  | nil => simp [matchLoop, spec_first_match]
  | cons obj rest ih =>
    by_cases hb : obj.class_name = "battery"
    · simp [matchLoop, spec_first_match, hb, classToAngle]
    · by_cases hmo : obj.class_name = "motor"
      · simp [matchLoop, spec_first_match, hb, hmo, classToAngle]
      · simp only [matchLoop, spec_first_match, if_neg hb, if_neg hmo] at ih ⊢
        rw [List.find?_cons_of_neg]
        · exact ih
        · simp [classToAngle, hb, hmo]

lemma matchLoop_class_names (dets dets2 : List Detection)
    (h : dets.map Detection.class_name = dets2.map Detection.class_name) :
    matchLoop dets = matchLoop dets2 := by
  induction dets generalizing dets2 with
  | nil =>
    cases dets2 with
    | nil => rfl
    | cons b l2 => simp at h
  | cons a l ih =>
    cases dets2 with
    | nil => simp at h
    | cons b l2 =>
      simp only [List.map_cons, List.cons.injEq] at h
      obtain ⟨h1, h2⟩ := h
      simp [matchLoop, h1, ih l2 h2]

lemma runTicks_tracking_silent (homeAngle : ℚ) (c : String)
    (ticks : List (List Detection × ℚ)) :
    ∀ s : CoordState, s.last_object = some c →
    (∀ p ∈ ticks, matchLoop p.1 = some c) →
    (runTicks homeAngle s ticks).2 = [] := by
  induction ticks with
  | nil => intro s _ _; simp [runTicks]
  | cons p rest ih =>
    intro s hs hall
    obtain ⟨dets, now⟩ := p
    have h1 : matchLoop dets = some c := hall _ (List.mem_cons_self _ _)
    simp only [runTicks]
    rw [process_results_of_match homeAngle s c dets now h1]
    simp [hs, ih ⟨some now, some c⟩ rfl fun q hq => hall q (List.mem_cons_of_mem _ hq)]

lemma runTicks_idle_silent (homeAngle : ℚ) (ticks : List (List Detection × ℚ)) :
    ∀ s : CoordState, s.last_seen_time = none →
    (∀ p ∈ ticks, ∀ d ∈ p.1, classToAngle d.class_name = none) →
    (runTicks homeAngle s ticks).2 = [] := by
  induction ticks with
  | nil => intro s _ _; simp [runTicks]
  | cons p rest ih =>
    intro s hs hall
    obtain ⟨dets, now⟩ := p
    have h1 : matchLoop dets = none :=
      matchLoop_none_of_unknown dets (hall _ (List.mem_cons_self _ _))
    have h2 : process_results homeAngle s dets now = (s, []) :=
      process_results_no_match_quiet homeAngle now s dets h1
        (fun t ht => by rw [hs] at ht; cases ht)
    simp only [runTicks]
    rw [h2]
    simp [ih s hs fun q hq => hall q (List.mem_cons_of_mem _ hq)]

/-! ## Claim theorems -/

/-- C1 (counterexample to the claim as stated): with state
`last_object = "battery"`, `last_seen_at = 0`, a NON-EMPTY detection list
containing only the unknown class `person`, and `now = 2` (so
`now - last_seen_at > idle_timeout`), `process_results` does NOT emit the
home command and does NOT clear the state: `if results:` is taken on any
non-empty list, so the timeout branch never runs. -/
theorem unknown_only_list_blocks_timeout :
    classToAngle "person" = none ∧
    (CoordState.mk (some 0) (some "battery")).last_object.isSome ∧
    (2 : ℚ) - 0 > 1 ∧
    process_results 90 ⟨some 0, some "battery"⟩ [⟨"person", 9/10, (0, 0, 0, 0)⟩] 2 =
      (⟨some 0, some "battery"⟩, []) ∧
    process_results 90 ⟨some 0, some "battery"⟩ [⟨"person", 9/10, (0, 0, 0, 0)⟩] 2 ≠
      (⟨none, none⟩, [Command.moveTo 90]) := by
  refine ⟨by simp [classToAngle], rfl, by norm_num, ?_, ?_⟩
  · simp [process_results, process_loop]
  · simp [process_results, process_loop]

/-- C1 (amended): for every tick whose detection list is EMPTY, if
`last_matched_class` is non-empty and `now - last_seen_at > idle_timeout`,
then `process_results` emits `MoveTo(home_angle)` and clears both
`last_matched_class` and `last_seen_at`. -/
theorem idle_timeout_returns_home (homeAngle now t : ℚ) (s : CoordState)
    (_ho : s.last_object.isSome) (ht : s.last_seen_time = some t)
    (hb : now - t > 1) :
    process_results homeAngle s [] now =
      (⟨none, none⟩, [Command.moveTo homeAngle]) := by
  simp [process_results, ht, hb]

/-- C1 witness for the amended theorem. -/
theorem idle_timeout_returns_home_witness :
    process_results 90 ⟨some 0, some "battery"⟩ [] 2 =
      (⟨none, none⟩, [Command.moveTo 90]) :=
  idle_timeout_returns_home 90 2 0 ⟨some 0, some "battery"⟩ rfl rfl (by norm_num)

/-- C2: the tick's matched class (`matchLoop`, the class on which the loop
of `process_results` breaks) equals the first detection whose class is a
key of `class_to_angle` (`spec_first_match`); it depends only on the
sequence of class names — confidences and boxes are never consulted — and
it is the class `process_results` records in `last_object`. -/
theorem first_match_policy (dets dets2 : List Detection)
    (h : dets.map Detection.class_name = dets2.map Detection.class_name) :
    matchLoop dets = spec_first_match dets ∧
    matchLoop dets = matchLoop dets2 ∧
    ∀ (homeAngle : ℚ) (s : CoordState) (now : ℚ) (c : String),
      matchLoop dets = some c →
      (process_results homeAngle s dets now).1.last_object = some c :=
  ⟨matchLoop_eq_spec dets, matchLoop_class_names dets dets2 h,
    fun homeAngle s now c hm => by
      rw [process_results_of_match homeAngle s c dets now hm]⟩

/-- C2 witness: a list with an unknown class first and differing
confidences/boxes still matches `motor`. -/
theorem first_match_policy_witness :
    matchLoop [⟨"person", 1/2, (0, 0, 0, 0)⟩, ⟨"motor", 3/10, (1, 1, 2, 2)⟩] =
      spec_first_match [⟨"person", 1/2, (0, 0, 0, 0)⟩, ⟨"motor", 3/10, (1, 1, 2, 2)⟩] :=
  (first_match_policy [⟨"person", 1/2, (0, 0, 0, 0)⟩, ⟨"motor", 3/10, (1, 1, 2, 2)⟩]
    [⟨"person", 1, (0, 0, 0, 0)⟩, ⟨"motor", 1, (0, 0, 0, 0)⟩] (by simp)).1

/-- C3: a tick whose matched class equals `last_object` emits nothing and
refreshes `last_seen_time` to `now`; consequently a run of consecutive
ticks all matching the same class `c`, entered with `last_object ≠ c`,
emits exactly one command, at the first tick. -/
theorem same_match_refreshes_only (homeAngle : ℚ) (s : CoordState) (c : String)
    (now : ℚ) (dets : List Detection) (hm : matchLoop dets = some c) :
    (s.last_object = some c →
      process_results homeAngle s dets now = (⟨some now, some c⟩, [])) ∧
    (s.last_object ≠ some c → ∀ ticks : List (List Detection × ℚ),
      (∀ p ∈ ticks, matchLoop p.1 = some c) →
      (runTicks homeAngle s ((dets, now) :: ticks)).2.length = 1) := by
  constructor
  · intro hs
    rw [process_results_of_match homeAngle s c dets now hm]
    simp [hs]
  · intro hs ticks hall
    simp only [runTicks]
    rw [process_results_of_match homeAngle s c dets now hm]
    simp [hs, runTicks_tracking_silent homeAngle c ticks ⟨some now, some c⟩ rfl hall]

/-- C3 witness: three consecutive `battery` ticks from the idle state emit
exactly one command. -/
theorem same_match_refreshes_only_witness :
    (runTicks 90 initialState
      [([⟨"battery", 1, (0, 0, 0, 0)⟩], 0), ([⟨"battery", 1, (0, 0, 0, 0)⟩], 1),
        ([⟨"battery", 1, (0, 0, 0, 0)⟩], 2)]).2.length = 1 :=
  (same_match_refreshes_only 90 initialState "battery" 0
      [⟨"battery", 1, (0, 0, 0, 0)⟩] (by simp [matchLoop])).2
    (by simp [initialState])
    [([⟨"battery", 1, (0, 0, 0, 0)⟩], 1), ([⟨"battery", 1, (0, 0, 0, 0)⟩], 2)]
    (by simp [matchLoop])

/-- C4: when no detection matches and `last_object` is non-empty, a tick at
exactly `now - last_seen_at = idle_timeout` is NOT yet timed out: nothing
is emitted and the state is unchanged (the comparison is strict `>`). -/
theorem timeout_boundary_not_elapsed (homeAngle now t : ℚ) (s : CoordState)
    (dets : List Detection) (hm : matchLoop dets = none)
    (_ho : s.last_object.isSome) (ht : s.last_seen_time = some t)
    (hb : now - t = 1) :
    process_results homeAngle s dets now = (s, []) :=
  process_results_no_match_quiet homeAngle now s dets hm fun u hu => by
    rw [ht] at hu
    cases hu
    rw [hb]
    norm_num

/-- C4 witness: the boundary tick at `now = 1` with `last_seen_at = 0`. -/
theorem timeout_boundary_not_elapsed_witness :
    process_results 90 ⟨some 0, some "battery"⟩ [] 1 =
      (⟨some 0, some "battery"⟩, []) :=
  timeout_boundary_not_elapsed 90 1 0 ⟨some 0, some "battery"⟩ [] rfl rfl rfl
    (by norm_num)

/-- C5: a tick emits at most one servo command, whatever the detection
list and the current state: the loop breaks at its first match and each
branch of `process_results` issues at most one `servo.move`/`servo.home`. -/
theorem at_most_one_command (homeAngle : ℚ) (s : CoordState)
    (dets : List Detection) (now : ℚ) :
    (process_results homeAngle s dets now).2.length ≤ 1 := by
  rcases h : matchLoop dets with _ | c
  · cases dets with
    | nil =>
      cases hs : s.last_seen_time with
      | none => simp [process_results, hs]
      | some t =>
        by_cases hc : now - t > 1
        · simp [process_results, hs, hc]
        · simp [process_results, hs, hc]
    | cons obj rest =>
      simp [process_results, process_loop_of_matchLoop_none s.last_object now _ h]
  · rw [process_results_of_match homeAngle s c dets now h]
    by_cases hc : s.last_object = some c <;> simp [hc]

/-- C6: the invariant "`last_object` is non-empty iff `last_seen_time` is
non-empty" holds in the initial state and is preserved by every
`process_results` call, for every detection list and every time. -/
theorem state_invariant_preserved :
    coordInv initialState ∧
    ∀ (homeAngle : ℚ) (s : CoordState) (dets : List Detection) (now : ℚ),
      coordInv s → coordInv (process_results homeAngle s dets now).1 := by
  refine ⟨rfl, fun homeAngle s dets now hs => ?_⟩
  rcases h : matchLoop dets with _ | c
  · cases dets with
    | nil =>
      cases ht : s.last_seen_time with
      | none => simpa [process_results, ht] using hs
      | some t =>
        by_cases hc : now - t > 1
        · simp [process_results, ht, hc, coordInv]
        · simpa [process_results, ht, hc] using hs
    | cons obj rest =>
      simpa [process_results,
        process_loop_of_matchLoop_none s.last_object now _ h] using hs
  · rw [process_results_of_match homeAngle s c dets now h]
    simp [coordInv]

/-- C6 witness: the invariant after one tick on the initial state. -/
theorem state_invariant_preserved_witness :
    coordInv (process_results 90 initialState [] 0).1 :=
  state_invariant_preserved.2 90 initialState [] 0 rfl

/-- C7: the spec's six-tick scenario with `class_to_angle =
battery ↦ 45, motor ↦ 135`, `home_angle = 90`, `idle_timeout = 1`:
the emitted commands are `MoveTo 45`, none, none, `MoveTo 90`,
`MoveTo 135`, `MoveTo 45`, with the stated intermediate states. -/
theorem six_tick_scenario :
    process_results 90 initialState [⟨"battery", 9/10, (0, 0, 0, 0)⟩] 0 =
      (⟨some 0, some "battery"⟩, [Command.moveTo 45]) ∧
    process_results 90 ⟨some 0, some "battery"⟩
        [⟨"battery", 9/10, (0, 0, 0, 0)⟩] (3/10) =
      (⟨some (3/10), some "battery"⟩, []) ∧
    process_results 90 ⟨some (3/10), some "battery"⟩ [] (1/2) =
      (⟨some (3/10), some "battery"⟩, []) ∧
    process_results 90 ⟨some (3/10), some "battery"⟩ [] (3/2) =
      (⟨none, none⟩, [Command.moveTo 90]) ∧
    process_results 90 initialState [⟨"motor", 9/10, (0, 0, 0, 0)⟩] (8/5) =
      (⟨some (8/5), some "motor"⟩, [Command.moveTo 135]) ∧
    process_results 90 ⟨some (8/5), some "motor"⟩
        [⟨"battery", 9/10, (0, 0, 0, 0)⟩, ⟨"motor", 9/10, (0, 0, 0, 0)⟩] (17/10) =
      (⟨some (17/10), some "battery"⟩, [Command.moveTo 45]) := by
  refine ⟨?_, ?_, ?_, ?_, ?_, ?_⟩
  · simp [process_results, process_loop, initialState]
  · simp [process_results, process_loop]
  · simp [process_results]
    norm_num
  · simp [process_results]
    norm_num
  · simp [process_results, process_loop, initialState]
  · simp [process_results, process_loop]

/-- C8: a run from the initial state in which no tick's detection list
ever contains a class of `class_to_angle` never emits a command. -/
theorem pure_idle_no_commands (homeAngle : ℚ)
    (ticks : List (List Detection × ℚ))
    (h : ∀ p ∈ ticks, ∀ d ∈ p.1, classToAngle d.class_name = none) :
    (runTicks homeAngle initialState ticks).2 = [] :=
  runTicks_idle_silent homeAngle ticks initialState rfl h

/-- C8 witness: two idle ticks, one with an unknown detection, one empty. -/
theorem pure_idle_no_commands_witness :
    (runTicks 90 initialState
      [([⟨"person", 1, (0, 0, 0, 0)⟩], 0), ([], 1)]).2 = [] :=
  pure_idle_no_commands 90 [([⟨"person", 1, (0, 0, 0, 0)⟩], 0), ([], 1)]
    (by simp [classToAngle])

/-- C9: a tick with no matched detection while `last_object` is non-empty
and `now - last_seen_at ≤ idle_timeout` emits nothing and leaves every
state field unchanged. -/
theorem grace_period_frame (homeAngle now t : ℚ) (s : CoordState)
    (dets : List Detection) (hm : matchLoop dets = none)
    (_ho : s.last_object.isSome) (ht : s.last_seen_time = some t)
    (hb : now - t ≤ 1) :
    process_results homeAngle s dets now = (s, []) :=
  process_results_no_match_quiet homeAngle now s dets hm fun u hu => by
    rw [ht] at hu
    cases hu
    exact not_lt.mpr hb

/-- C9 witness: an empty tick within the grace period. -/
theorem grace_period_frame_witness :
    process_results 90 ⟨some 0, some "battery"⟩ [] (1/2) =
      (⟨some 0, some "battery"⟩, []) :=
  grace_period_frame 90 (1/2) 0 ⟨some 0, some "battery"⟩ [] rfl rfl rfl
    (by norm_num)

/-- C10: `ServoController.move` clamps the requested angle to
`[min_angle, max_angle]` instead of failing; afterwards `get_angle`
reports exactly the clamped requested angle, and that report does not
depend on `angle_offset` (which only shifts the hardware command). -/
theorem move_clamps_and_reports (s : ServoController) (angle o : ℚ)
    (h : s.min_angle ≤ s.max_angle) :
    (s.move angle).get_angle = s.clamp_angle angle ∧
    s.min_angle ≤ (s.move angle).get_angle ∧
    (s.move angle).get_angle ≤ s.max_angle ∧
    ServoController.get_angle
        (ServoController.move { s with angle_offset := o } angle) =
      (s.move angle).get_angle := by
  refine ⟨rfl, le_max_left _ _, ?_, rfl⟩
  exact max_le h (min_le_left _ _)

/-- C10 witness: an out-of-range request of 200° on a `[0, 180]` servo
with offset 5 is clamped, and `get_angle` reports 180 with any offset. -/
theorem move_clamps_and_reports_witness :
    ((⟨0, 180, 90, 5, 90, 90⟩ : ServoController).move 200).get_angle =
      (⟨0, 180, 90, 5, 90, 90⟩ : ServoController).clamp_angle 200 :=
  (move_clamps_and_reports ⟨0, 180, 90, 5, 90, 90⟩ 200 7 (by norm_num)).1
